import Mathlib

/-!
# Verification of the geyserbench ingestion engine

Shallow embedding of the Rust sources of `geyserbench`:

* `src/config.rs`          — configuration structures and `load_or_create`
* `src/providers/mod.rs`   — `ProviderContext`
* `src/providers/yellowstone.rs`, `arpc.rs`, `jetstream.rs` — producer loops

Machine data that is irrelevant to the verified properties (timestamps,
signature bytes) is modelled with `Nat` / `List Nat`; fallible paths return
`Option`.  The shared coordination state (`shared_counter`, `shared_shutdown`,
the broadcast) is modelled by an explicit interleaved small-step machine.
-/

namespace Geyserbench

/-! ## Configuration (`src/config.rs`) -/

/-- `EndpointKind` from `src/config.rs`. -/
inductive EndpointKind
  | yellowstone | arpc | thor | shredstream | shreder | jetstream
  deriving DecidableEq, Repr

/-- `ArgsCommitment` from `src/config.rs` (default `Processed`). -/
inductive ArgsCommitment
  | processed | confirmed | finalized
  deriving DecidableEq, Repr

/-- `Endpoint` from `src/config.rs`. -/
structure Endpoint where
  name : String
  url : String
  x_token : Option String
  kind : EndpointKind
  deriving DecidableEq, Repr

/-- `Config` from `src/config.rs`.  The struct declares `transactions`,
`accounts` (plural, with serde alias `account`) and `commitment`; the
`arpc.rs` and `jetstream.rs` sources additionally read a singular field
`config.account`, which we carry as `account` so those providers can be
embedded as written. -/
structure Config where
  transactions : Int
  accounts : List String
  account : String
  commitment : ArgsCommitment
  deriving DecidableEq, Repr

/-- `BackendSettings` from `src/config.rs` (`enabled` defaults to true). -/
structure BackendSettings where
  enabled : Bool
  url : Option String
  deriving DecidableEq, Repr

/-- `BackendSettings::default()`: serde fills `enabled = true`, `url = None`. -/
def BackendSettings.default : BackendSettings :=
  { enabled := true, url := none }

/-- `ConfigToml` from `src/config.rs`. -/
structure ConfigToml where
  config : Config
  endpoint : List Endpoint
  backend : BackendSettings
  deriving DecidableEq, Repr

/-- `DEFAULT_ACCOUNT` constant from `src/config.rs`. -/
def DEFAULT_ACCOUNT : String := "pAMMBay6oceH9fJKBRHGP5D4bD4sWpmSwMn52FMfXEA"

/-- `default_accounts()` from `src/config.rs`. -/
def default_accounts : List String := [DEFAULT_ACCOUNT]

/-- The value built by `ConfigToml::create_default` in `src/config.rs`
(the singular `account` mirror is the single default account). -/
def createDefaultConfig : ConfigToml :=
  { config :=
      { transactions := 1000
        accounts := default_accounts
        account := DEFAULT_ACCOUNT
        commitment := ArgsCommitment.processed }
    endpoint :=
      [ { name := "grpc"
          url := "http://fra.corvus-labs.io:10101"
          x_token := none
          kind := EndpointKind.yellowstone }
      , { name := "arpc"
          url := "http://fra.corvus-labs.io:20202"
          x_token := none
          kind := EndpointKind.arpc } ]
    backend := BackendSettings.default }

/-- Result of `ConfigToml::load_or_create`: the returned configuration and
the content written to the path (`none` when nothing is written). -/
structure LoadOrCreateResult where
  returned : ConfigToml
  written : Option ConfigToml
  deriving DecidableEq, Repr

/-- `ConfigToml::load_or_create` from `src/config.rs`, over an abstract file
system: `existing` is the parsed content of the file at the path when it
exists.  When absent, `create_default` writes and returns the default;
when present, `load` returns the parsed file and writes nothing. -/
def loadOrCreate (existing : Option ConfigToml) : LoadOrCreateResult :=
  match existing with
  | some c => { returned := c, written := none }
  | none => { returned := createDefaultConfig, written := some createDefaultConfig }

/-! ## Yellowstone client construction (`src/providers/yellowstone.rs`) -/

/-- Rust `str::trim`: drop leading and trailing whitespace (modelled over the
character list; ASCII whitespace suffices for the tokens considered here). -/
def rustTrim (s : String) : String :=
  ⟨(((s.data.dropWhile Char.isWhitespace).reverse.dropWhile
      Char.isWhitespace).reverse)⟩

/-- The x-token actually installed on the Yellowstone client builder:
`endpoint.x_token.clone().filter(|token| !token.trim().is_empty())`
(`src/providers/yellowstone.rs:67-70`). -/
def effectiveXToken (x_token : Option String) : Option String :=
  x_token.filter (fun token => !(rustTrim token).isEmpty)

/-- The connection configuration assembled by `process_yellowstone_endpoint`
before `connect()` (`src/providers/yellowstone.rs:74-89`): url, the filtered
x-token, and a TLS config with native roots. -/
structure YellowstoneClientConfig where
  url : String
  xToken : Option String
  tlsNativeRoots : Bool
  deriving DecidableEq, Repr

/-- Builder chain of `process_yellowstone_endpoint`: `build_from_shared(url)`,
then `.x_token(Some(token))` only when the filtered token is present, then
`.tls_config(native roots)`. -/
def buildYellowstoneClient (url : String) (x_token : Option String) :
    YellowstoneClientConfig :=
  { url := url
    xToken := effectiveXToken x_token
    tlsNativeRoots := true }

/-! ## Wire messages and per-iteration handling

Signature bytes and account keys are byte strings, modelled as `List Nat`.
`bs58Encode` stands in for the base58 rendering (`bs58::encode(..).into_string()`);
its only properties used here are that it is a definite function and that the
empty byte string renders as the empty string, as base58 does. -/

def bs58Encode (bytes : List Nat) : String :=
  String.join (bytes.map (fun b => toString b ++ ","))

/-- A value produced by `stream.next()`: `some (ok msg)`, `some err`
(receive error), or `none` (stream closed). -/
inductive StreamItem (M : Type)
  | ok (msg : M)
  | err
  deriving DecidableEq, Repr

/-- What one iteration of a producer loop does with a stream value. -/
inductive LoopAction
  | record (signature : String)  -- run the record path (log, accumulator, …)
  | skip                         -- nothing recorded; loop continues
  | pingReply                    -- answer a ping; loop continues
  | exit                         -- break out of the loop
  deriving DecidableEq, Repr

/-- Solana transaction embedded in a Yellowstone transaction update:
`signatures` and the message's account keys (the latter are present on the
wire but never read by `process_yellowstone_endpoint`). -/
structure SolanaTransaction where
  signatures : List (List Nat)
  accountKeys : List (List Nat)
  deriving DecidableEq, Repr

/-- `SubscribeUpdateTransactionInfo`: the `transaction` field read by
`tx.transaction.as_ref()` in `src/providers/yellowstone.rs:201`. -/
structure YsTransactionInfo where
  transaction : Option SolanaTransaction
  deriving DecidableEq, Repr

/-- The transaction update message (`tx_msg`), whose `transaction` field is
read at `src/providers/yellowstone.rs:200`. -/
structure YsTransactionUpdate where
  transaction : Option YsTransactionInfo
  deriving DecidableEq, Repr

/-- Account info inside a Yellowstone account update; only `txn_signature`
is read (`src/providers/yellowstone.rs:191`). -/
structure YsAccountInfo where
  txnSignature : Option (List Nat)
  deriving DecidableEq, Repr

/-- The account update message (`account_update`), whose `account` field is
read at `src/providers/yellowstone.rs:190`. -/
structure YsAccountUpdate where
  account : Option YsAccountInfo
  deriving DecidableEq, Repr

/-- `subscribe_update::UpdateOneof` variants distinguished by the
Yellowstone loop (`src/providers/yellowstone.rs:188-218`); all remaining
variants fall into `other`. -/
inductive YsUpdateOneof
  | account (u : YsAccountUpdate)
  | transaction (u : YsTransactionUpdate)
  | ping
  | other
  deriving DecidableEq, Repr

/-- A Yellowstone stream message: `msg.update_oneof`. -/
structure YsMessage where
  updateOneof : Option YsUpdateOneof
  deriving DecidableEq, Repr

/-- One iteration of the Yellowstone producer loop on the value returned by
`stream.next()` (`src/providers/yellowstone.rs:185-229`): `Some(Err)` logs
and breaks, `None` logs and breaks, account updates lacking `txn_signature`
and transaction updates lacking a first signature are skipped with a
warning, pings are answered, and signatures are recorded with **no**
client-side account-key check. -/
def ysHandleStreamEvent (item : Option (StreamItem YsMessage)) : LoopAction :=
  match item with
  | none => .exit
  | some .err => .exit
  | some (.ok msg) =>
    match msg.updateOneof with
    | some (.account u) =>
      match u.account with
      | none => .skip
      | some info =>
        match info.txnSignature with
        | none => .skip
        | some bytes => .record (bs58Encode bytes)
    | some (.transaction u) =>
      match u.transaction with
      | none => .skip
      | some tx =>
        match tx.transaction.bind (fun t => t.signatures.head?) with
        | none => .skip
        | some bytes => .record (bs58Encode bytes)
    | some .ping => .pingReply
    | _ => .skip

/-- Transaction carried by an Arpc message: `tx.account_keys` and
`tx.signatures` (`src/providers/arpc.rs:113-123`). -/
structure ArpcTransaction where
  signatures : List (List Nat)
  accountKeys : List (List Nat)
  deriving DecidableEq, Repr

/-- An Arpc stream message: `msg.transaction`. -/
structure ArpcMessage where
  transaction : Option ArpcTransaction
  deriving DecidableEq, Repr

/-- One iteration of the Arpc producer loop (`src/providers/arpc.rs:109-161`):
`let Some(Ok(msg)) = message else { continue }` turns receive errors *and*
stream end into `continue`; messages are kept only when some account key
equals the configured account's bytes; the signature is
`tx.signatures.first().map(bs58).unwrap_or_default()`, so an empty
signatures list is recorded under the empty string. -/
def arpcHandleStreamEvent (accountPubkey : List Nat)
    (item : Option (StreamItem ArpcMessage)) : LoopAction :=
  match item with
  | none => .skip
  | some .err => .skip
  | some (.ok msg) =>
    match msg.transaction with
    | none => .skip
    | some tx =>
      if tx.accountKeys.any (fun k => k == accountPubkey) then
        .record (((tx.signatures.head?).map bs58Encode).getD "")
      else
        .skip

/-- Transaction info inside a Jetstream transaction update: a single
`signature` byte string and `account_keys`
(`src/providers/jetstream.rs:111-119`). -/
structure JsTransactionInfo where
  signature : List Nat
  accountKeys : List (List Nat)
  deriving DecidableEq, Repr

/-- The Jetstream transaction update, whose `transaction` field is read at
`src/providers/jetstream.rs:110`. -/
structure JsTransactionUpdate where
  transaction : Option JsTransactionInfo
  deriving DecidableEq, Repr

/-- Jetstream `subscribe_update::UpdateOneof`: the loop matches only the
`Transaction` variant. -/
inductive JsUpdateOneof
  | transaction (u : JsTransactionUpdate)
  | other
  deriving DecidableEq, Repr

/-- A Jetstream stream message: `msg.update_oneof`. -/
structure JsMessage where
  updateOneof : Option JsUpdateOneof
  deriving DecidableEq, Repr

/-- One iteration of the Jetstream producer loop
(`src/providers/jetstream.rs:107-168`): the `if let Some(Ok(msg)) && …`
chain makes receive errors and stream end fall through to the next
iteration; kept messages must have an account key equal to the configured
account's bytes; the signature bytes are recorded unconditionally
(`bs58::encode(&tx_info.signature)`). -/
def jetstreamHandleStreamEvent (accountPubkey : List Nat)
    (item : Option (StreamItem JsMessage)) : LoopAction :=
  match item with
  | none => .skip
  | some .err => .skip
  | some (.ok msg) =>
    match msg.updateOneof with
    | some (.transaction u) =>
      match u.transaction with
      | none => .skip
      | some info =>
        if info.accountKeys.any (fun k => k == accountPubkey) then
          .record (bs58Encode info.signature)
        else
          .skip
    | _ => .skip

/-! ## Subscription filters -/

/-- `SubscribeRequestFilterTransactions` (the fields common to the
Yellowstone, Arpc and Jetstream protos; remaining Yellowstone fields are
proto defaults via `..Default::default()`). -/
structure SubscribeRequestFilterTransactions where
  accountInclude : List String
  accountExclude : List String
  accountRequired : List String
  deriving DecidableEq, Repr

/-- `SubscribeRequestFilterAccounts` built by the Yellowstone provider. -/
structure SubscribeRequestFilterAccounts where
  account : List String
  owner : List String
  filters : List String
  nonemptyTxnSignature : Option Bool
  deriving DecidableEq, Repr

/-- The Yellowstone accounts filter (`src/providers/yellowstone.rs:95-103`):
built from the full `config.accounts`, with `nonempty_txn_signature = Some(true)`. -/
def ysAccountsFilter (cfg : Config) : SubscribeRequestFilterAccounts :=
  { account := cfg.accounts
    owner := []
    filters := []
    nonemptyTxnSignature := some true }

/-- The Yellowstone transactions filter (`src/providers/yellowstone.rs:105-113`):
`account_include` is the full `config.accounts`. -/
def ysTransactionsFilter (cfg : Config) : SubscribeRequestFilterTransactions :=
  { accountInclude := cfg.accounts
    accountExclude := []
    accountRequired := [] }

/-- The Arpc transactions filter (`src/providers/arpc.rs:81-88`):
`account_include: vec![config.account.clone()]` — a single account. -/
def arpcTransactionsFilter (cfg : Config) : SubscribeRequestFilterTransactions :=
  { accountInclude := [cfg.account]
    accountExclude := []
    accountRequired := [] }

/-- The Jetstream transactions filter (`src/providers/jetstream.rs:76-83`):
`account_required: vec![config.account.clone()]` — a single account. -/
def jetstreamTransactionsFilter (cfg : Config) : SubscribeRequestFilterTransactions :=
  { accountInclude := []
    accountExclude := []
    accountRequired := [cfg.account] }

/-- All account names mentioned anywhere in a transactions filter. -/
def SubscribeRequestFilterTransactions.mentioned
    (f : SubscribeRequestFilterTransactions) : List String :=
  f.accountInclude ++ f.accountExclude ++ f.accountRequired

/-- A run config with two accounts, whose singular `account` mirror holds
the first of them. -/
def twoAccountConfig : Config :=
  { transactions := 1000
    accounts := ["A", "B"]
    account := "A"
    commitment := ArgsCommitment.processed }

/-! ## Shared quota counter and shutdown CAS

All three providers run the same guarded block on novelty
(`src/providers/yellowstone.rs:159-168`, `arpc.rs:144-153`,
`jetstream.rs:144-157`):

    if let Some(target) = target_transactions {
        let shared = shared_counter.fetch_add(1, AcqRel) + 1;
        if let Some(tracker) = progress { tracker.record(shared); }
        if shared >= target && !shared_shutdown.swap(true, AcqRel) {
            let _ = shutdown_tx.send(());
        }
    }

The `fetch_add` and the `swap` are two separate atomic operations, so the
machine below splits the block into two actions and lets an arbitrary
scheduler interleave producers between them.  Producers are indexed by
`Nat`; `pending i = some o` means producer `i` has executed its `fetch_add`
observing `o` with `o ≥ target` and has not yet executed the `swap` (the
`&&` short-circuits, so the swap is reached only under `o ≥ target`). -/

/-- The shared coordination state plus the per-producer program points. -/
structure QuotaState where
  counter : Nat                  -- shared_counter
  shutdownFlag : Bool            -- shared_shutdown
  pending : Nat → Option Nat     -- producers between fetch_add and swap
  broadcasts : List (Nat × Nat)  -- (producer, observed) per shutdown_tx.send
  progressReports : Nat          -- number of tracker.record calls

/-- Scheduler action: producer `i` starts the guarded block on a novelty
(executing `fetch_add` and the tracker report), or executes its pending
`shared_shutdown.swap(true)`. -/
inductive QuotaAct
  | novelty (i : Nat)
  | swap (i : Nat)
  deriving DecidableEq, Repr

/-- Pointwise update of the per-producer program points. -/
def pendingUpdate (f : Nat → Option Nat) (i : Nat) (v : Option Nat) :
    Nat → Option Nat :=
  fun j => if j = i then v else f j

/-- One interleaved atomic step of the guarded quota block. -/
def quotaStep (target : Option Nat) (s : QuotaState) : QuotaAct → QuotaState
  | .novelty i =>
    match target with
    | none => s                  -- `if let Some(target)` — block skipped entirely
    | some t =>
      match s.pending i with
      | some _ => s              -- producer is still before its swap; cannot start anew
      | none =>
        let shared := s.counter + 1
        { s with
            counter := shared
            progressReports := s.progressReports + 1
            pending := pendingUpdate s.pending i
              (if t ≤ shared then some shared else none) }
  | .swap i =>
    match s.pending i with
    | none => s
    | some o =>
      { s with
          shutdownFlag := true   -- swap(true) stores true unconditionally
          pending := pendingUpdate s.pending i none
          broadcasts :=
            if s.shutdownFlag then s.broadcasts else s.broadcasts ++ [(i, o)] }

/-- Initial shared state: counter 0, flag false, no producer mid-block. -/
def quotaInit : QuotaState :=
  { counter := 0
    shutdownFlag := false
    pending := fun _ => none
    broadcasts := []
    progressReports := 0 }

/-- Run of the quota machine over a scheduler trace. -/
def quotaExec (target : Option Nat) (acts : List QuotaAct) : QuotaState :=
  acts.foldl (quotaStep target) quotaInit

/-- Invariant of the quota machine under a configured target `t`. -/
def QuotaInv (t : Nat) (s : QuotaState) : Prop :=
  (s.shutdownFlag = false → s.broadcasts = []) ∧
  (s.shutdownFlag = true → s.broadcasts.length = 1) ∧
  (∀ p ∈ s.broadcasts, t ≤ p.2) ∧
  (∀ i o, s.pending i = some o → t ≤ o)

/-! ## The record path (accumulator, comparator, envelopes, counter)

`TransactionAccumulator`, `Comparator` and `build_signature_envelope` live
in `src/utils.rs` / `src/providers/common.rs`, which are not under `src/`;
they are modelled from the spec below and marked as such. -/

/-- Modelled from the spec: `TransactionData` (declared in the repository's
`src/utils.rs`, absent from `src/`); fields per §3 of the spec.  The
`f64`/`Duration` values are modelled as abstract numeric ticks. -/
structure TransactionData where
  wallclockSecs : Nat
  elapsedSinceStart : Nat
  startWallclockSecs : Nat
  deriving DecidableEq, Repr

/-- Modelled from the spec: `SignatureEnvelope` (declared in the
repository's `src/backend.rs`, absent from `src/`); fields per §3. -/
structure SignatureEnvelope where
  signature : String
  sourceName : String
  wallclockSecs : Nat
  elapsedSinceStart : Nat
  totalProducers : Nat
  deriving DecidableEq, Repr

/-- Association-list lookup with propositional key equality. -/
def alookup {α : Type} : List (String × α) → String → Option α
  | [], _ => none
  | (k', v) :: rest, k => if k' = k then some v else alookup rest k

/-- Association-list update: replace the entry for `k`, or append one. -/
def upsert {α : Type} : List (String × α) → String → α → List (String × α)
  | [], k, v => [(k, v)]
  | (k', w) :: rest, k, v =>
    if k' = k then (k, v) :: rest else (k', w) :: upsert rest k v

/-- A producer-local accumulator: signature → first local observation. -/
abbrev AccumMap := List (String × TransactionData)

/-- Modelled from the spec: `TransactionAccumulator::record`
(`src/providers/common.rs`, absent from `src/`); §8: returns `true` exactly
once per signature, later calls return `false` and do not overwrite the
stored observation. -/
def accumRecord (acc : AccumMap) (sig : String) (txd : TransactionData) :
    Bool × AccumMap :=
  match alookup acc sig with
  | some _ => (false, acc)
  | none => (true, (sig, txd) :: acc)

/-- The comparator registry `by_signature`: signature → source → earliest
observation (§4.3 of the spec). -/
abbrev CompMap := String → String → Option TransactionData

/-- Modelled from the spec: `Comparator::note_first_seen` as wrapped by
`build_signature_envelope` (`src/providers/common.rs`, absent from `src/`);
§4.3: keeps the smaller `elapsed_since_start` per (signature, source) and
returns an envelope exactly when the call produced a new
(signature, source) entry. -/
def noteFirstSeen (comp : CompMap) (src sig : String) (txd : TransactionData)
    (total : Nat) : Option SignatureEnvelope × CompMap :=
  match comp sig src with
  | none =>
    (some { signature := sig
            sourceName := src
            wallclockSecs := txd.wallclockSecs
            elapsedSinceStart := txd.elapsedSinceStart
            totalProducers := total },
     fun g s => if g = sig ∧ s = src then some txd else comp g s)
  | some prev =>
    (none,
     fun g s =>
       if g = sig ∧ s = src then
         some (if txd.elapsedSinceStart < prev.elapsedSinceStart then txd else prev)
       else comp g s)

/-- One novelty-path event: producer `source` reaches the record path with
`signature` and observation `txd` (the code after the message decoding and
account filter in each provider's loop). -/
structure RecordEvent where
  source : String
  signature : String
  txd : TransactionData
  deriving DecidableEq, Repr

/-- Accumulators of all producers, the shared comparator, the shared
counter, and every envelope pushed so far. -/
structure EngineState where
  accs : List (String × AccumMap)
  comp : CompMap
  counter : Nat
  envelopes : List SignatureEnvelope

/-- The common record path (`record_signature`,
`src/providers/yellowstone.rs:134-176`, and the identical inline blocks at
`arpc.rs:118-158`, `jetstream.rs:117-163`): call `accumulator.record`; only
when it returns `true` call `build_signature_envelope` (which always
updates the comparator); when that yields an envelope, increment the shared
counter (under a configured quota) and push the envelope. -/
def recordStep (target : Option Nat) (total : Nat) (st : EngineState)
    (e : RecordEvent) : EngineState :=
  let acc := (alookup st.accs e.source).getD []
  let res := accumRecord acc e.signature e.txd
  let accs' := upsert st.accs e.source res.2
  if res.1 then
    match noteFirstSeen st.comp e.source e.signature e.txd total with
    | (some env, comp') =>
      { accs := accs'
        comp := comp'
        counter := st.counter + (if target.isSome then 1 else 0)
        envelopes := st.envelopes ++ [env] }
    | (none, comp') =>
      { accs := accs'
        comp := comp'
        counter := st.counter
        envelopes := st.envelopes }
  else
    { st with accs := accs' }

/-- Initial engine state: empty accumulators, empty comparator, counter 0. -/
def engineInit : EngineState :=
  { accs := [], comp := fun _ _ => none, counter := 0, envelopes := [] }

/-- Run of the record path over a linearised trace of novelty events. -/
def engineRun (target : Option Nat) (total : Nat) (evs : List RecordEvent) :
    EngineState :=
  evs.foldl (recordStep target total) engineInit

/-- Total size of all producer accumulators: the number of distinct
(source, signature) pairs registered. -/
def accsSize (l : List (String × AccumMap)) : Nat :=
  (l.map (fun p => p.2.length)).sum

/-- `src`'s accumulator holds `sig`. -/
def accHas (accs : List (String × AccumMap)) (src sig : String) : Prop :=
  (alookup ((alookup accs src).getD []) sig).isSome = true

/-- The (source, signature) pairs of a trace, in order. -/
def pairsOf (evs : List RecordEvent) : List (String × String) :=
  evs.map (fun e => (e.source, e.signature))

/-- Number of envelopes pushed for a given (source, signature) pair. -/
def envCount (envs : List SignatureEnvelope) (src sig : String) : Nat :=
  (envs.filter
    (fun env => decide (env.sourceName = src ∧ env.signature = sig))).length

/-- Inductive invariant of the record path after processing `evs`: the
shared counter equals the total accumulator size when a quota is
configured (and stays 0 otherwise); the comparator holds a
(signature, source) entry exactly when that source's accumulator holds the
signature; the accumulators hold exactly the (source, signature) pairs of
the trace; and each pair has at most one envelope, only after its
registration. -/
def EngineInv (target : Option Nat) (st : EngineState)
    (evs : List RecordEvent) : Prop :=
  st.counter = (if target.isSome then accsSize st.accs else 0) ∧
  (∀ sig src, (st.comp sig src).isSome = true ↔ accHas st.accs src sig) ∧
  (∀ src sig, accHas st.accs src sig ↔ (src, sig) ∈ pairsOf evs) ∧
  (∀ src sig, envCount st.envelopes src sig ≤ 1 ∧
    (1 ≤ envCount st.envelopes src sig → accHas st.accs src sig))

/-- A trace in which two different sources each see the same signature. -/
def dupSigTrace : List RecordEvent :=
  [ { source := "A", signature := "s1"
      txd := { wallclockSecs := 0, elapsedSinceStart := 0, startWallclockSecs := 0 } }
  , { source := "B", signature := "s1"
      txd := { wallclockSecs := 1, elapsedSinceStart := 1, startWallclockSecs := 0 } } ]

end Geyserbench

namespace Geyserbench

/-! ## Theorems: configuration -/

/-- **C9.** `ConfigToml::load_or_create`: when the file is absent it writes and
returns the default config — exactly two endpoints (a Yellowstone named
`"grpc"` and an Arpc named `"arpc"`), `transactions = 1000`, the single
default account, processed commitment; when the file exists it is loaded
and never overwritten. -/
theorem loadOrCreate_spec :
    (loadOrCreate none).returned = createDefaultConfig ∧
    (loadOrCreate none).written = some createDefaultConfig ∧
    createDefaultConfig.endpoint.length = 2 ∧
    (createDefaultConfig.endpoint.map (fun e => (e.name, e.kind))) =
      [("grpc", EndpointKind.yellowstone), ("arpc", EndpointKind.arpc)] ∧
    createDefaultConfig.config.transactions = 1000 ∧
    createDefaultConfig.config.accounts = [DEFAULT_ACCOUNT] ∧
    createDefaultConfig.config.commitment = ArgsCommitment.processed ∧
    ∀ c : ConfigToml, (loadOrCreate (some c)).returned = c ∧
      (loadOrCreate (some c)).written = none := by
  refine ⟨rfl, rfl, rfl, rfl, rfl, rfl, rfl, ?_⟩
  intro c
  exact ⟨rfl, rfl⟩

/-- **C10.** In the Yellowstone provider, an `x_token` that is present but
empty or whitespace-only is treated exactly as an absent token: the
constructed connection configuration equals the one built for `None`. -/
theorem yellowstone_blank_token_as_absent (url token : String)
    (h : rustTrim token = "") :
    buildYellowstoneClient url (some token) = buildYellowstoneClient url none := by
  simp [buildYellowstoneClient, effectiveXToken, Option.filter, h, String.isEmpty]

/-- Witness for C10 at a concrete whitespace-only token. -/
theorem yellowstone_blank_token_as_absent_witness :
    buildYellowstoneClient "http://x" (some "  ") =
      buildYellowstoneClient "http://x" none :=
  yellowstone_blank_token_as_absent "http://x" "  " (by decide)

/-! ## Theorems: stream termination (C3) -/

/-- **C3 counterexample.** The Arpc producer loop does *not* break on a
stream receive error or on stream end: `let Some(Ok(msg)) = message else
{ continue }` turns both into another loop iteration. -/
theorem arpc_continues_after_stream_termination :
    arpcHandleStreamEvent [0] none = LoopAction.skip ∧
    arpcHandleStreamEvent [0] (some StreamItem.err) = LoopAction.skip ∧
    LoopAction.skip ≠ LoopAction.exit :=
  ⟨rfl, rfl, by decide⟩

/-- **C3 (amended).** Yellowstone logs and breaks out of its loop both on a
stream receive error and on stream end; Arpc and Jetstream instead skip the
event and keep iterating (they exit only via the shutdown signal). -/
theorem stream_termination_handling (pk : List Nat) :
    ysHandleStreamEvent (some StreamItem.err) = LoopAction.exit ∧
    ysHandleStreamEvent none = LoopAction.exit ∧
    arpcHandleStreamEvent pk (some StreamItem.err) = LoopAction.skip ∧
    arpcHandleStreamEvent pk none = LoopAction.skip ∧
    jetstreamHandleStreamEvent pk (some StreamItem.err) = LoopAction.skip ∧
    jetstreamHandleStreamEvent pk none = LoopAction.skip :=
  ⟨rfl, rfl, rfl, rfl, rfl, rfl⟩

/-! ## Theorems: client-side account filter (C4) -/

/-- **C4 counterexample.** A Yellowstone transaction update whose account-key
list is empty — hence touching none of the configured accounts — is still
recorded: the Yellowstone loop has no client-side account check. -/
theorem ys_tx_path_has_no_account_filter :
    ysHandleStreamEvent (some (StreamItem.ok
        { updateOneof := some (YsUpdateOneof.transaction
            { transaction := some
                { transaction := some { signatures := [[1]], accountKeys := [] } } }) })) =
      LoopAction.record (bs58Encode [1]) ∧
    ({ signatures := [[1]], accountKeys := [] } : SolanaTransaction).accountKeys = [] :=
  ⟨rfl, rfl⟩

/-- **C4 (amended).** Arpc and Jetstream enforce the client-side account
filter: they record a signature only when some account key of the message
equals the configured account's bytes.  Yellowstone does not: its
transaction path records the first signature of any transaction update,
whatever the account keys. -/
theorem account_filter_enforcement :
    (∀ (pk : List Nat) (msg : ArpcMessage) (sig : String),
      arpcHandleStreamEvent pk (some (StreamItem.ok msg)) = LoopAction.record sig →
      ∃ tx, msg.transaction = some tx ∧ pk ∈ tx.accountKeys) ∧
    (∀ (pk : List Nat) (msg : JsMessage) (sig : String),
      jetstreamHandleStreamEvent pk (some (StreamItem.ok msg)) = LoopAction.record sig →
      ∃ u info, msg.updateOneof = some (JsUpdateOneof.transaction u) ∧
        u.transaction = some info ∧ pk ∈ info.accountKeys) ∧
    (∀ (keys : List (List Nat)) (sigbytes : List Nat),
      ysHandleStreamEvent (some (StreamItem.ok
          { updateOneof := some (YsUpdateOneof.transaction
              { transaction := some
                  { transaction := some { signatures := [sigbytes], accountKeys := keys } } }) })) =
        LoopAction.record (bs58Encode sigbytes)) := by
  refine ⟨?_, ?_, ?_⟩
  · intro pk msg sig h
    match hmt : msg.transaction with
    | none => simp [arpcHandleStreamEvent, hmt] at h
    | some tx =>
      refine ⟨tx, rfl, ?_⟩
      by_cases hany : (tx.accountKeys.any (fun k => k == pk)) = true
      · obtain ⟨k, hk, hbeq⟩ := List.any_eq_true.mp hany
        exact (beq_iff_eq.mp hbeq) ▸ hk
      · simp [arpcHandleStreamEvent, hmt, hany] at h
  · intro pk msg sig h
    match hmo : msg.updateOneof with
    | none => simp [jetstreamHandleStreamEvent, hmo] at h
    | some (JsUpdateOneof.other) => simp [jetstreamHandleStreamEvent, hmo] at h
    | some (JsUpdateOneof.transaction u) =>
      match hu : u.transaction with
      | none => simp [jetstreamHandleStreamEvent, hmo, hu] at h
      | some info =>
        refine ⟨u, info, rfl, hu, ?_⟩
        by_cases hany : (info.accountKeys.any (fun k => k == pk)) = true
        · obtain ⟨k, hk, hbeq⟩ := List.any_eq_true.mp hany
          exact (beq_iff_eq.mp hbeq) ▸ hk
        · simp [jetstreamHandleStreamEvent, hmo, hu, hany] at h
  · intro keys sigbytes
    rfl

/-- Witness for C4 (amended) at concrete messages. -/
theorem account_filter_enforcement_witness :
    (∃ tx, ({ transaction := some { signatures := [[1]], accountKeys := [[5]] } } :
        ArpcMessage).transaction = some tx ∧ [5] ∈ tx.accountKeys) ∧
    (∃ u info, ({ updateOneof := some (JsUpdateOneof.transaction
          { transaction := some { signature := [2], accountKeys := [[5]] } }) } :
        JsMessage).updateOneof = some (JsUpdateOneof.transaction u) ∧
      u.transaction = some info ∧ [5] ∈ info.accountKeys) ∧
    ysHandleStreamEvent (some (StreamItem.ok
        { updateOneof := some (YsUpdateOneof.transaction
            { transaction := some
                { transaction := some { signatures := [[9]], accountKeys := [[5]] } } }) })) =
      LoopAction.record (bs58Encode [9]) :=
  ⟨account_filter_enforcement.1 [5]
      { transaction := some { signatures := [[1]], accountKeys := [[5]] } }
      (bs58Encode [1]) rfl,
    account_filter_enforcement.2.1 [5]
      { updateOneof := some (JsUpdateOneof.transaction
          { transaction := some { signature := [2], accountKeys := [[5]] } }) }
      (bs58Encode [2]) rfl,
    account_filter_enforcement.2.2 [[5]] [9]⟩

/-! ## Theorems: subscription filters (C5) -/

/-- **C5 counterexample.** With two configured accounts, the Arpc and
Jetstream subscriptions mention only the singular `config.account`: the
second account `"B"` appears nowhere in their transaction filters. -/
theorem filters_miss_second_account :
    "B" ∈ twoAccountConfig.accounts ∧
    "B" ∉ (arpcTransactionsFilter twoAccountConfig).mentioned ∧
    "B" ∉ (jetstreamTransactionsFilter twoAccountConfig).mentioned := by
  refine ⟨by decide, by decide, by decide⟩

/-- **C5 (amended).** Only Yellowstone builds its subscription from the full
`config.accounts` (both the accounts filter and the transactions filter);
Arpc subscribes with `account_include = [config.account]` and Jetstream with
`account_required = [config.account]` — a single account each. -/
theorem subscription_filter_contents (cfg : Config) :
    (ysTransactionsFilter cfg).accountInclude = cfg.accounts ∧
    (ysAccountsFilter cfg).account = cfg.accounts ∧
    (ysAccountsFilter cfg).nonemptyTxnSignature = some true ∧
    (arpcTransactionsFilter cfg).mentioned = [cfg.account] ∧
    (jetstreamTransactionsFilter cfg).mentioned = [cfg.account] :=
  ⟨rfl, rfl, rfl, rfl, rfl⟩

/-! ## Theorems: messages lacking a signature (C6) -/

/-- **C6 counterexample.** An Arpc message whose transaction has an empty
signatures list but matches the configured account is *not* skipped:
`tx.signatures.first().map(bs58).unwrap_or_default()` records it under the
empty-string signature. -/
theorem arpc_records_empty_signature :
    arpcHandleStreamEvent [5] (some (StreamItem.ok
        { transaction := some { signatures := [], accountKeys := [[5]] } })) =
      LoopAction.record "" ∧
    LoopAction.record "" ≠ LoopAction.skip :=
  ⟨rfl, by decide⟩

/-- **C6 (amended).** Yellowstone skips a message lacking a signature (an
account update without `txn_signature`, or a transaction update with an
empty signatures list); Arpc instead records an account-matching message
with an empty signatures list under the empty-string signature. -/
theorem missing_signature_handling :
    (∀ info : YsAccountInfo, info.txnSignature = none →
      ysHandleStreamEvent (some (StreamItem.ok
          { updateOneof := some (YsUpdateOneof.account { account := some info }) })) =
        LoopAction.skip) ∧
    (∀ tx : SolanaTransaction, tx.signatures = [] →
      ysHandleStreamEvent (some (StreamItem.ok
          { updateOneof := some (YsUpdateOneof.transaction
              { transaction := some { transaction := some tx } }) })) =
        LoopAction.skip) ∧
    (∀ (pk : List Nat) (tx : ArpcTransaction), tx.signatures = [] →
      (tx.accountKeys.any (fun k => k == pk)) = true →
      arpcHandleStreamEvent pk (some (StreamItem.ok { transaction := some tx })) =
        LoopAction.record "") := by
  refine ⟨?_, ?_, ?_⟩
  · intro info h
    simp [ysHandleStreamEvent, h]
  · intro tx h
    simp [ysHandleStreamEvent, h]
  · intro pk tx hsig hany
    simp [arpcHandleStreamEvent, hany, hsig]

/-! ## Theorems: quota CAS safety (C1) and absent quota (C8) -/

/-- The quota-machine invariant holds in the initial state. -/
lemma quotaInv_init (t : Nat) : QuotaInv t quotaInit := by
  refine ⟨fun _ => rfl, fun h => by simp [quotaInit] at h, ?_, ?_⟩
  · intro p hp
    simp [quotaInit] at hp
  · intro i o h
    simp [quotaInit] at h

/-- The quota-machine invariant is preserved by every interleaved step. -/
lemma quotaStep_inv (t : Nat) (s : QuotaState) (a : QuotaAct)
    (h : QuotaInv t s) : QuotaInv t (quotaStep (some t) s a) := by
  obtain ⟨h1, h2, h3, h4⟩ := h
  cases a with
  | novelty i =>
    cases hp : s.pending i with
    | some o =>
      simpa [quotaStep, hp] using ⟨h1, h2, h3, h4⟩
    | none =>
      simp only [quotaStep, hp]
      refine ⟨h1, h2, h3, ?_⟩
      intro j o hj
      dsimp [pendingUpdate] at hj
      by_cases hij : j = i
      · rw [if_pos hij] at hj
        split at hj
        · next hle => cases hj; exact hle
        · cases hj
      · rw [if_neg hij] at hj
        exact h4 j o hj
  | swap i =>
    cases hp : s.pending i with
    | none =>
      simpa [quotaStep, hp] using ⟨h1, h2, h3, h4⟩
    | some o =>
      simp only [quotaStep, hp]
      refine ⟨?_, ?_, ?_, ?_⟩
      · intro hfalse
        cases hfalse
      · intro _
        cases hf : s.shutdownFlag
        · rw [if_neg (by simp [hf])]
          rw [h1 hf]
          rfl
        · rw [if_pos (by simp [hf])]
          exact h2 hf
      · intro p hpmem
        cases hf : s.shutdownFlag
        · rw [if_neg (by simp [hf])] at hpmem
          rcases List.mem_append.mp hpmem with hin | hin
          · exact h3 p hin
          · rcases List.mem_singleton.mp hin with rfl
            exact h4 i o hp
        · rw [if_pos (by simp [hf])] at hpmem
          exact h3 p hpmem
      · intro j o' hj
        dsimp [pendingUpdate] at hj
        by_cases hij : j = i
        · rw [if_pos hij] at hj
          cases hj
        · rw [if_neg hij] at hj
          exact h4 j o' hj

/-- The quota-machine invariant holds after any scheduler trace. -/
lemma quotaExec_inv (t : Nat) (acts : List QuotaAct) :
    QuotaInv t (quotaExec (some t) acts) := by
  suffices h : ∀ s : QuotaState, QuotaInv t s →
      QuotaInv t (acts.foldl (quotaStep (some t)) s) from
    h quotaInit (quotaInv_init t)
  induction acts with
  | nil => exact fun s hs => hs
  | cons a as ih => exact fun s hs => ih _ (quotaStep_inv t s a hs)

/-- **C1.** Under a configured quota, at most one producer broadcasts
shutdown in any interleaving: the `shared_shutdown.swap(true)` guard admits
at most one broadcast, exactly one once the flag is set, and every
broadcasting producer observed a `shared_counter` value `≥ target` at its
`fetch_add`. -/
theorem quota_cas_safety (t : Nat) (acts : List QuotaAct) :
    (quotaExec (some t) acts).broadcasts.length ≤ 1 ∧
    ((quotaExec (some t) acts).shutdownFlag = true →
      (quotaExec (some t) acts).broadcasts.length = 1) ∧
    (∀ p ∈ (quotaExec (some t) acts).broadcasts, t ≤ p.2) := by
  obtain ⟨h1, h2, h3, _⟩ := quotaExec_inv t acts
  refine ⟨?_, h2, h3⟩
  cases hf : (quotaExec (some t) acts).shutdownFlag
  · rw [h1 hf]
    exact Nat.zero_le 1
  · rw [h2 hf]

/-- Witness for C1: with target 1, a single producer's novelty followed by
its swap yields exactly one broadcast whose observed value meets the target. -/
theorem quota_cas_safety_witness :
    (quotaExec (some 1) [QuotaAct.novelty 0, QuotaAct.swap 0]).broadcasts.length = 1 ∧
    1 ≤ ((0, 1) : Nat × Nat).2 :=
  ⟨(quota_cas_safety 1 [QuotaAct.novelty 0, QuotaAct.swap 0]).2.1 rfl,
   (quota_cas_safety 1 [QuotaAct.novelty 0, QuotaAct.swap 0]).2.2 (0, 1) (by decide)⟩

/-- With no configured quota, every step of the guarded block from the
initial state is a no-op (`if let Some(target)` skips the whole block, and
no swap is ever pending). -/
lemma quotaStep_none_init (a : QuotaAct) :
    quotaStep none quotaInit a = quotaInit := by
  cases a with
  | novelty i => rfl
  | swap i => rfl

/-- **C8.** When `target_transactions` is `None`, no interleaving of
producers ever increments `shared_counter`, reports to the progress
tracker, or broadcasts shutdown via the CAS path: the shared state stays
exactly the initial one. -/
theorem no_quota_no_coordination_effects (acts : List QuotaAct) :
    quotaExec none acts = quotaInit ∧
    (quotaExec none acts).counter = 0 ∧
    (quotaExec none acts).progressReports = 0 ∧
    (quotaExec none acts).broadcasts = [] ∧
    (quotaExec none acts).shutdownFlag = false := by
  have h : quotaExec none acts = quotaInit := by
    unfold quotaExec
    induction acts with
    | nil => rfl
    | cons a as ih =>
      rw [List.foldl_cons, quotaStep_none_init a]
      exact ih
  exact ⟨h, by rw [h]; rfl, by rw [h]; rfl, by rw [h]; rfl, by rw [h]; rfl⟩

/-- Witness for C6 (amended) at concrete messages. -/
theorem missing_signature_handling_witness :
    ysHandleStreamEvent (some (StreamItem.ok
        { updateOneof := some (YsUpdateOneof.account
            { account := some { txnSignature := none } }) })) = LoopAction.skip ∧
    ysHandleStreamEvent (some (StreamItem.ok
        { updateOneof := some (YsUpdateOneof.transaction
            { transaction := some
                { transaction := some { signatures := [], accountKeys := [[7]] } } }) })) =
      LoopAction.skip ∧
    arpcHandleStreamEvent [5] (some (StreamItem.ok
        { transaction := some { signatures := [], accountKeys := [[5]] } })) =
      LoopAction.record "" :=
  ⟨missing_signature_handling.1 { txnSignature := none } rfl,
    missing_signature_handling.2.1 { signatures := [], accountKeys := [[7]] } rfl,
    missing_signature_handling.2.2 [5] { signatures := [], accountKeys := [[5]] }
      rfl (by decide)⟩

/-! ## Theorems: the shared counter and envelope invariants (C2, C7) -/

lemma alookup_upsert_self {α : Type} (l : List (String × α)) (k : String)
    (v : α) : alookup (upsert l k v) k = some v := by
  induction l with
  | nil => simp [upsert, alookup]
  | cons p rest ih =>
    obtain ⟨k', w⟩ := p
    by_cases h : k' = k
    · simp [upsert, h, alookup]
    · simp [upsert, h, alookup, ih]

lemma alookup_upsert_other {α : Type} (l : List (String × α)) (k k' : String)
    (v : α) (h : k' ≠ k) : alookup (upsert l k v) k' = alookup l k' := by
  have h' : ¬(k = k') := fun e => h e.symm
  induction l with
  | nil => simp [upsert, alookup, h']
  | cons p rest ih =>
    obtain ⟨k'', w⟩ := p
    by_cases h2 : k'' = k
    · subst h2
      simp [upsert, alookup, h']
    · simp [upsert, h2, alookup, ih]

lemma accsSize_cons (k : String) (w : AccumMap)
    (rest : List (String × AccumMap)) :
    accsSize ((k, w) :: rest) = w.length + accsSize rest := by
  simp [accsSize]

lemma accsSize_upsert_none (l : List (String × AccumMap)) (k : String)
    (v : AccumMap) (h : alookup l k = none) :
    accsSize (upsert l k v) = accsSize l + v.length := by
  induction l with
  | nil => simp [upsert, accsSize]
  | cons p rest ih =>
    obtain ⟨k', w⟩ := p
    by_cases h2 : k' = k
    · simp [alookup, h2] at h
    · simp only [alookup, if_neg h2] at h
      simp only [upsert, if_neg h2]
      rw [accsSize_cons, accsSize_cons, ih h]
      omega

lemma accsSize_upsert_some (l : List (String × AccumMap)) (k : String)
    (v w : AccumMap) (h : alookup l k = some w) :
    accsSize (upsert l k v) + w.length = accsSize l + v.length := by
  induction l with
  | nil => simp [alookup] at h
  | cons p rest ih =>
    obtain ⟨k', w'⟩ := p
    by_cases h2 : k' = k
    · simp only [alookup, if_pos h2, Option.some.injEq] at h
      subst h
      simp only [upsert, if_pos h2]
      rw [accsSize_cons, accsSize_cons]
      omega
    · simp only [alookup, if_neg h2] at h
      simp only [upsert, if_neg h2]
      rw [accsSize_cons, accsSize_cons]
      have := ih h
      omega

lemma accHas_upsert_self (accs : List (String × AccumMap)) (src : String)
    (acc : AccumMap) (g : String) :
    accHas (upsert accs src acc) src g ↔ (alookup acc g).isSome = true := by
  simp [accHas, alookup_upsert_self]

lemma accHas_upsert_other (accs : List (String × AccumMap)) (src s : String)
    (acc : AccumMap) (g : String) (h : s ≠ src) :
    accHas (upsert accs src acc) s g ↔ accHas accs s g := by
  simp [accHas, alookup_upsert_other accs src s acc h]

lemma pairsOf_append (evs : List RecordEvent) (e : RecordEvent) :
    pairsOf (evs ++ [e]) = pairsOf evs ++ [(e.source, e.signature)] := by
  simp [pairsOf]

lemma envCount_append (envs : List SignatureEnvelope)
    (env : SignatureEnvelope) (src sig : String) :
    envCount (envs ++ [env]) src sig =
      envCount envs src sig +
        (if env.sourceName = src ∧ env.signature = sig then 1 else 0) := by
  by_cases h : env.sourceName = src ∧ env.signature = sig
  · simp [envCount, List.filter_append, h]
  · simp [envCount, List.filter_append, h]

/-- The record-path invariant holds in the initial engine state. -/
lemma engineInit_inv (target : Option Nat) : EngineInv target engineInit [] := by
  refine ⟨?_, ?_, ?_, ?_⟩
  · cases target <;> rfl
  · intro sig src
    simp [engineInit, accHas, alookup]
  · intro src sig
    simp [engineInit, accHas, alookup, pairsOf]
  · intro src sig
    simp [envCount, engineInit]

/-- The record-path invariant is preserved by each novelty event. -/
lemma recordStep_inv (target : Option Nat) (total : Nat) (st : EngineState)
    (e : RecordEvent) (evs : List RecordEvent) (h : EngineInv target st evs) :
    EngineInv target (recordStep target total st e) (evs ++ [e]) := by
  obtain ⟨hcnt, hcomp, hpairs, henv⟩ := h
  cases hsrc : alookup st.accs e.source with
  | some acc =>
    cases hd : alookup acc e.signature with
    | some d =>
      -- duplicate within this producer: record returns false
      have hstep : recordStep target total st e =
          { st with accs := upsert st.accs e.source acc } := by
        simp [recordStep, accumRecord, hsrc, hd]
      have hhas : accHas st.accs e.source e.signature := by
        simp [accHas, hsrc, hd]
      have haccs : ∀ s g,
          accHas (upsert st.accs e.source acc) s g ↔ accHas st.accs s g := by
        intro s g
        by_cases hs : s = e.source
        · subst hs
          rw [accHas_upsert_self]
          simp [accHas, hsrc]
        · exact accHas_upsert_other st.accs e.source s acc g hs
      have hsize : accsSize (upsert st.accs e.source acc) = accsSize st.accs := by
        have := accsSize_upsert_some st.accs e.source acc acc hsrc
        omega
      rw [hstep]
      refine ⟨?_, ?_, ?_, ?_⟩
      · simpa [hsize] using hcnt
      · intro sig src
        rw [hcomp sig src]
        exact (haccs src sig).symm
      · intro src sig
        rw [haccs src sig, hpairs src sig, pairsOf_append]
        constructor
        · intro hm
          exact List.mem_append.mpr (Or.inl hm)
        · intro hm
          rcases List.mem_append.mp hm with hm | hm
          · exact hm
          · have hp := List.mem_singleton.mp hm
            have hs : src = e.source := congrArg Prod.fst hp
            have hg : sig = e.signature := congrArg Prod.snd hp
            subst hs; subst hg
            exact (hpairs e.source e.signature).mp hhas
      · intro src sig
        refine ⟨(henv src sig).1, fun hc => ?_⟩
        exact (haccs src sig).mpr ((henv src sig).2 hc)
    | none =>
      -- novel for this producer, existing accumulator
      have hnothas : ¬ accHas st.accs e.source e.signature := by
        simp [accHas, hsrc, hd]
      have hcompnone : st.comp e.signature e.source = none := by
        rcases hcn : st.comp e.signature e.source with _ | v
        · rfl
        · exact absurd ((hcomp e.signature e.source).mp (by simp [hcn])) hnothas
      have hstep : recordStep target total st e =
          { accs := upsert st.accs e.source ((e.signature, e.txd) :: acc)
            comp := fun g s =>
              if g = e.signature ∧ s = e.source then some e.txd else st.comp g s
            counter := st.counter + (if target.isSome then 1 else 0)
            envelopes := st.envelopes ++
              [{ signature := e.signature
                 sourceName := e.source
                 wallclockSecs := e.txd.wallclockSecs
                 elapsedSinceStart := e.txd.elapsedSinceStart
                 totalProducers := total }] } := by
        simp [recordStep, accumRecord, hsrc, hd, noteFirstSeen, hcompnone]
      have hsize : accsSize (upsert st.accs e.source ((e.signature, e.txd) :: acc)) =
          accsSize st.accs + 1 := by
        have := accsSize_upsert_some st.accs e.source
          ((e.signature, e.txd) :: acc) acc hsrc
        simp only [List.length_cons] at this
        omega
      have haccs : ∀ s g,
          accHas (upsert st.accs e.source ((e.signature, e.txd) :: acc)) s g ↔
            (s = e.source ∧ g = e.signature) ∨ accHas st.accs s g := by
        intro s g
        by_cases hs : s = e.source
        · subst hs
          rw [accHas_upsert_self]
          by_cases hg : e.signature = g
          · subst hg
            simp [alookup, accHas, hsrc]
          · have hg' : ¬g = e.signature := fun e' => hg e'.symm
            simp only [alookup, if_neg hg]
            simp [accHas, hsrc, alookup, hg']
        · rw [accHas_upsert_other st.accs e.source s _ g hs]
          simp [hs]
      rw [hstep]
      refine ⟨?_, ?_, ?_, ?_⟩
      · simp only [hsize]
        cases target <;> simp [hcnt]
      · intro sig src
        rw [haccs src sig]
        by_cases hgs : sig = e.signature ∧ src = e.source
        · simp [hgs, hgs.1, hgs.2]
        · simp only [if_neg hgs]
          rw [hcomp sig src]
          constructor
          · intro hh
            exact Or.inr hh
          · intro hh
            rcases hh with ⟨hs, hg⟩ | hh
            · exact absurd ⟨hg, hs⟩ hgs
            · exact hh
      · intro src sig
        rw [haccs src sig, pairsOf_append]
        constructor
        · intro hh
          rcases hh with ⟨hs, hg⟩ | hh
          · subst hs; subst hg
            exact List.mem_append.mpr (Or.inr (List.mem_singleton.mpr rfl))
          · exact List.mem_append.mpr (Or.inl ((hpairs src sig).mp hh))
        · intro hm
          rcases List.mem_append.mp hm with hm | hm
          · exact Or.inr ((hpairs src sig).mpr hm)
          · have hp := List.mem_singleton.mp hm
            exact Or.inl ⟨congrArg Prod.fst hp, congrArg Prod.snd hp⟩
      · intro src sig
        rw [envCount_append]
        by_cases hmatch : e.source = src ∧ e.signature = sig
        · obtain ⟨hs, hg⟩ := hmatch
          subst hs; subst hg
          have hzero : envCount st.envelopes e.source e.signature = 0 := by
            by_contra hnz
            exact hnothas ((henv e.source e.signature).2 (Nat.one_le_iff_ne_zero.mpr hnz))
          rw [hzero]
          refine ⟨by split <;> omega, fun _ => ?_⟩
          rw [haccs e.source e.signature]
          exact Or.inl ⟨rfl, rfl⟩
        · rw [if_neg hmatch]
          simp only [Nat.add_zero]
          refine ⟨(henv src sig).1, fun hc => ?_⟩
          rw [haccs src sig]
          exact Or.inr ((henv src sig).2 hc)
  | none =>
    -- this producer has no accumulator entry yet: necessarily novel
    have hnothas : ¬ accHas st.accs e.source e.signature := by
      simp [accHas, hsrc, alookup]
    have hcompnone : st.comp e.signature e.source = none := by
      rcases hcn : st.comp e.signature e.source with _ | v
      · rfl
      · exact absurd ((hcomp e.signature e.source).mp (by simp [hcn])) hnothas
    have hstep : recordStep target total st e =
        { accs := upsert st.accs e.source [(e.signature, e.txd)]
          comp := fun g s =>
            if g = e.signature ∧ s = e.source then some e.txd else st.comp g s
          counter := st.counter + (if target.isSome then 1 else 0)
          envelopes := st.envelopes ++
            [{ signature := e.signature
               sourceName := e.source
               wallclockSecs := e.txd.wallclockSecs
               elapsedSinceStart := e.txd.elapsedSinceStart
               totalProducers := total }] } := by
      simp [recordStep, accumRecord, hsrc, alookup, noteFirstSeen, hcompnone]
    have hsize : accsSize (upsert st.accs e.source [(e.signature, e.txd)]) =
        accsSize st.accs + 1 := by
      have := accsSize_upsert_none st.accs e.source [(e.signature, e.txd)] hsrc
      simp only [List.length_cons, List.length_nil] at this
      omega
    have haccs : ∀ s g,
        accHas (upsert st.accs e.source [(e.signature, e.txd)]) s g ↔
          (s = e.source ∧ g = e.signature) ∨ accHas st.accs s g := by
      intro s g
      by_cases hs : s = e.source
      · subst hs
        rw [accHas_upsert_self]
        by_cases hg : e.signature = g
        · subst hg
          simp [alookup, accHas, hsrc]
        · have hg' : ¬g = e.signature := fun e' => hg e'.symm
          simp only [alookup, if_neg hg]
          simp [accHas, hsrc, alookup, hg']
      · rw [accHas_upsert_other st.accs e.source s _ g hs]
        simp [hs]
    rw [hstep]
    refine ⟨?_, ?_, ?_, ?_⟩
    · simp only [hsize]
      cases target <;> simp [hcnt]
    · intro sig src
      rw [haccs src sig]
      by_cases hgs : sig = e.signature ∧ src = e.source
      · simp [hgs, hgs.1, hgs.2]
      · simp only [if_neg hgs]
        rw [hcomp sig src]
        constructor
        · intro hh
          exact Or.inr hh
        · intro hh
          rcases hh with ⟨hs, hg⟩ | hh
          · exact absurd ⟨hg, hs⟩ hgs
          · exact hh
    · intro src sig
      rw [haccs src sig, pairsOf_append]
      constructor
      · intro hh
        rcases hh with ⟨hs, hg⟩ | hh
        · subst hs; subst hg
          exact List.mem_append.mpr (Or.inr (List.mem_singleton.mpr rfl))
        · exact List.mem_append.mpr (Or.inl ((hpairs src sig).mp hh))
      · intro hm
        rcases List.mem_append.mp hm with hm | hm
        · exact Or.inr ((hpairs src sig).mpr hm)
        · have hp := List.mem_singleton.mp hm
          exact Or.inl ⟨congrArg Prod.fst hp, congrArg Prod.snd hp⟩
    · intro src sig
      rw [envCount_append]
      by_cases hmatch : e.source = src ∧ e.signature = sig
      · obtain ⟨hs, hg⟩ := hmatch
        subst hs; subst hg
        have hzero : envCount st.envelopes e.source e.signature = 0 := by
          by_contra hnz
          exact hnothas ((henv e.source e.signature).2 (Nat.one_le_iff_ne_zero.mpr hnz))
        rw [hzero]
        refine ⟨by split <;> omega, fun _ => ?_⟩
        rw [haccs e.source e.signature]
        exact Or.inl ⟨rfl, rfl⟩
      · rw [if_neg hmatch]
        simp only [Nat.add_zero]
        refine ⟨(henv src sig).1, fun hc => ?_⟩
        rw [haccs src sig]
        exact Or.inr ((henv src sig).2 hc)

/-- The record-path invariant holds after any linearised trace. -/
lemma engineRun_inv (target : Option Nat) (total : Nat)
    (evs : List RecordEvent) :
    EngineInv target (engineRun target total evs) evs := by
  induction evs using List.reverseRecOn with
  | nil => exact engineInit_inv target
  | append_singleton l e ih =>
    have := recordStep_inv target total (engineRun target total l) e l ih
    simpa [engineRun, List.foldl_append] using this

/-- **C2 counterexample.** Two sources each registering the same signature
increment `shared_counter` twice, while the number of distinct signature
strings registered is one: the counter counts per-source novelties, not
unique signatures across producers. -/
theorem counter_double_counts_cross_source_signature :
    (engineRun (some 10) 2 dupSigTrace).counter = 2 ∧
    ((dupSigTrace.map (fun e => e.signature)).dedup).length = 1 := by
  constructor
  · rfl
  · decide

/-- **C2 (amended).** Under a configured quota, `shared_counter` equals the
number of distinct (source, signature) pairs registered — the sum of the
per-producer accumulator sizes — and a pair is registered exactly when it
occurs in the trace; a signature first seen by two different sources
therefore contributes two to the counter, not one. -/
theorem shared_counter_counts_pairs (t total : Nat) (evs : List RecordEvent) :
    (engineRun (some t) total evs).counter =
      accsSize (engineRun (some t) total evs).accs ∧
    (∀ src sig, accHas (engineRun (some t) total evs).accs src sig ↔
      (src, sig) ∈ pairsOf evs) := by
  obtain ⟨h1, _, h3, _⟩ := engineRun_inv (some t) total evs
  exact ⟨by simpa using h1, h3⟩

/-- **C7.** An envelope is pushed (and the counter incremented) only when
`Accumulator.record` returned `true` for the signature: when `record`
returns `false` the step leaves the envelope list and the counter
untouched, and any (source, signature) pair has at most one envelope over
a whole run. -/
theorem envelope_only_on_novel_record (target : Option Nat) (total : Nat) :
    (∀ (st : EngineState) (e : RecordEvent),
      (accumRecord ((alookup st.accs e.source).getD []) e.signature e.txd).1 =
        false →
      (recordStep target total st e).envelopes = st.envelopes ∧
      (recordStep target total st e).counter = st.counter) ∧
    (∀ (evs : List RecordEvent) (src sig : String),
      envCount (engineRun target total evs).envelopes src sig ≤ 1) := by
  constructor
  · intro st e h
    constructor <;> simp [recordStep, h]
  · intro evs src sig
    exact ((engineRun_inv target total evs).2.2.2 src sig).1

/-- Witness for C7: replaying a signature already recorded by source `"A"`
leaves the envelopes and the counter unchanged. -/
theorem envelope_only_on_novel_record_witness :
    (recordStep (some 5) 2
        (engineRun (some 5) 2
          [{ source := "A", signature := "s1"
             txd := { wallclockSecs := 0, elapsedSinceStart := 0
                      startWallclockSecs := 0 } }])
        { source := "A", signature := "s1"
          txd := { wallclockSecs := 1, elapsedSinceStart := 1
                   startWallclockSecs := 0 } }).envelopes =
      (engineRun (some 5) 2
          [{ source := "A", signature := "s1"
             txd := { wallclockSecs := 0, elapsedSinceStart := 0
                      startWallclockSecs := 0 } }]).envelopes ∧
    (recordStep (some 5) 2
        (engineRun (some 5) 2
          [{ source := "A", signature := "s1"
             txd := { wallclockSecs := 0, elapsedSinceStart := 0
                      startWallclockSecs := 0 } }])
        { source := "A", signature := "s1"
          txd := { wallclockSecs := 1, elapsedSinceStart := 1
                   startWallclockSecs := 0 } }).counter =
      (engineRun (some 5) 2
          [{ source := "A", signature := "s1"
             txd := { wallclockSecs := 0, elapsedSinceStart := 0
                      startWallclockSecs := 0 } }]).counter :=
  (envelope_only_on_novel_record (some 5) 2).1
    (engineRun (some 5) 2
      [{ source := "A", signature := "s1"
         txd := { wallclockSecs := 0, elapsedSinceStart := 0
                  startWallclockSecs := 0 } }])
    { source := "A", signature := "s1"
      txd := { wallclockSecs := 1, elapsedSinceStart := 1
               startWallclockSecs := 0 } }
    (by decide)

end Geyserbench
